import Mathlib

/-!
Verification of the multi-chat WebSocket core (Go backend) against its
natural-language specification.

Shallow embedding of:
- `backend/models/message.go` (`Message`, `MessageType`)
- `backend/websocket/websocket.go` (`Client`, `Hub`, `Hub.Run`'s register,
  unregister and broadcast cases, `Hub.BroadcastToRoom`, `Hub.LeaveRoom`,
  `Client.readPump`'s per-frame processing, `HandleConnections`' session
  bootstrap)
- `backend/database` (`InsertMessage` with the Mongo `_id,omitempty`
  semantics, `GetMessages`)

MongoDB `ObjectID` values are modelled as `Nat`, with `0` playing the role
of `primitive.NilObjectID`.  Go maps are modelled as association lists;
channels as explicit bounded queues (`Queue`); wall-clock times as `Nat`.
-/

/-- Mongo ObjectID, modelled as a natural number; `0` is the nil ObjectID. -/
abbrev ObjectId := Nat

/-- `primitive.NilObjectID`. -/
def nilObjectID : ObjectId := 0

/-- `models.MessageType` is a Go string type. -/
abbrev MessageType := String

/-- `models.MessageTypeChat` (ordinary chat message, the spec's `normal` kind). -/
def MessageTypeChat : MessageType := "chat"

/-- `models.MessageTypeSystem`. -/
def MessageTypeSystem : MessageType := "system"

/-- `models.Message` from `backend/models/message.go`.  Field order and names
follow the Go struct. -/
structure Message where
  id : ObjectId
  type : MessageType
  roomId : ObjectId
  senderId : ObjectId
  senderUsername : String
  recipientId : ObjectId
  content : String
  timestamp : Nat
  isRead : Bool
deriving DecidableEq

/-- A `websocket.Client`: `cid` models the pointer identity of the `*Client`,
`userId` and `username` the `UserID` and `Username` fields.  The `send`
channel is kept separately in the hub state, keyed by `cid`. -/
structure Client where
  cid : Nat
  userId : ObjectId
  username : String
deriving DecidableEq

/-- The buffered `send` channel of a client: pending messages, capacity
(256 in `HandleConnections`), and whether `close` has been called on it. -/
structure Queue where
  msgs : List Message
  cap : Nat
  closed : Bool
deriving DecidableEq

/-- The mutable state of `websocket.Hub` (maps modelled as association
lists), together with the per-client `send` queues. -/
structure Hub where
  clients : List Client
  clientsByUserID : List (Nat × Client)
  roomClients : List (Nat × List Client)
  queues : List (Nat × Queue)
deriving DecidableEq

/-- The `messages` Mongo collection, in insertion order. -/
abbrev Store := List Message

/-! ### Association-list operations (Go map primitives) -/

/-- Map lookup `m[k]`. -/
def assocFind {V : Type} (k : Nat) : List (Nat × V) → Option V
  | [] => none
  | (k1, v) :: rest => if k1 = k then some v else assocFind k rest

/-- Map write `m[k] = v` (overwrites an existing binding). -/
def assocUpdate {V : Type} (k : Nat) (v : V) : List (Nat × V) → List (Nat × V)
  | [] => [(k, v)]
  | (k1, v1) :: rest =>
      if k1 = k then (k, v) :: rest else (k1, v1) :: assocUpdate k v rest

/-- Map delete `delete(m, k)`. -/
def assocErase {V : Type} (k : Nat) : List (Nat × V) → List (Nat × V)
  | [] => []
  | (k1, v1) :: rest =>
      if k1 = k then assocErase k rest else (k1, v1) :: assocErase k rest

/-- Membership test in a Go `map[*Client]bool` used as a set. -/
def memClient (c : Client) : List Client → Bool
  | [] => false
  | x :: xs => if x = c then true else memClient c xs

/-- Go map-as-set insert `s[c] = true`. -/
def setInsert (c : Client) (l : List Client) : List Client :=
  if memClient c l then l else c :: l

/-- Go map-as-set delete `delete(s, c)` (the key disappears entirely). -/
def removeClient (c : Client) : List Client → List Client
  | [] => []
  | x :: xs => if x = c then removeClient c xs else x :: removeClient c xs

/-! ### Association-list lemmas -/

theorem assocFind_update_self {V : Type} (k : Nat) (v : V) (l : List (Nat × V)) :
    assocFind k (assocUpdate k v l) = some v := by
  induction l with
  | nil => simp [assocUpdate, assocFind]
  | cons p rest ih =>
      obtain ⟨k1, v1⟩ := p
      by_cases hk : k1 = k
      · simp [assocUpdate, hk, assocFind]
      · simp [assocUpdate, hk, assocFind, ih]

theorem assocFind_update_ne {V : Type} (x k : Nat) (v : V) (l : List (Nat × V))
    (hx : x ≠ k) : assocFind x (assocUpdate k v l) = assocFind x l := by
  have hkx : k ≠ x := Ne.symm hx
  induction l with
  | nil => simp [assocUpdate, assocFind, hkx]
  | cons p rest ih =>
      obtain ⟨k1, v1⟩ := p
      by_cases hk : k1 = k
      · subst hk
        simp [assocUpdate, assocFind, hkx]
      · simp [assocUpdate, hk, assocFind, ih]

theorem assocFind_erase_self {V : Type} (k : Nat) (l : List (Nat × V)) :
    assocFind k (assocErase k l) = none := by
  induction l with
  | nil => simp [assocErase, assocFind]
  | cons p rest ih =>
      obtain ⟨k1, v1⟩ := p
      by_cases hk : k1 = k
      · simp [assocErase, hk, ih]
      · simp [assocErase, hk, assocFind, ih]

theorem assocFind_erase_ne {V : Type} (x k : Nat) (l : List (Nat × V))
    (hx : x ≠ k) : assocFind x (assocErase k l) = assocFind x l := by
  have hkx : k ≠ x := Ne.symm hx
  induction l with
  | nil => simp [assocErase, assocFind]
  | cons p rest ih =>
      obtain ⟨k1, v1⟩ := p
      by_cases hk : k1 = k
      · subst hk
        simp [assocErase, assocFind, hkx, ih]
      · simp [assocErase, hk, assocFind, ih]

theorem memClient_iff (c : Client) (l : List Client) :
    memClient c l = true ↔ c ∈ l := by
  induction l with
  | nil => simp [memClient]
  | cons x xs ih =>
      by_cases hx : x = c
      · simp [memClient, hx]
      · have hcx : ¬c = x := fun h => hx h.symm
        simp [memClient, hx, ih, hcx]

theorem mem_setInsert (x c : Client) (l : List Client) :
    x ∈ setInsert c l ↔ x = c ∨ x ∈ l := by
  unfold setInsert
  by_cases h : memClient c l
  · have hc : c ∈ l := (memClient_iff c l).mp h
    simp only [h, if_pos]
    constructor
    · exact Or.inr
    · rintro (rfl | hx)
      · exact hc
      · exact hx
  · simp [h]

theorem not_mem_removeClient (c : Client) (l : List Client) :
    c ∉ removeClient c l := by
  induction l with
  | nil => simp [removeClient]
  | cons x xs ih =>
      by_cases hx : x = c
      · simpa [removeClient, hx] using ih
      · have hcx : ¬c = x := fun h => hx h.symm
        simp [removeClient, hx, hcx, ih]

theorem mem_removeClient_of_ne (x c : Client) (l : List Client) (hx : x ≠ c) :
    x ∈ removeClient c l ↔ x ∈ l := by
  induction l with
  | nil => simp [removeClient]
  | cons y ys ih =>
      by_cases hy : y = c
      · subst hy
        simp [removeClient, ih, hx]
      · simp [removeClient, hy, ih]

theorem mem_of_mem_removeClient (x c : Client) (l : List Client)
    (h : x ∈ removeClient c l) : x ∈ l := by
  induction l with
  | nil => simp [removeClient] at h
  | cons y ys ih =>
      by_cases hy : y = c
      · simp only [removeClient, if_pos hy] at h
        exact List.mem_cons_of_mem y (ih h)
      · simp only [removeClient, if_neg hy, List.mem_cons] at h
        rcases h with h | h
        · exact h ▸ List.mem_cons_self y ys
        · exact List.mem_cons_of_mem y (ih h)

/-! ### Queue operations (non-blocking channel send, close) -/

/-- The fresh buffered channel `make(chan models.Message, 256)` created in
`HandleConnections`. -/
def emptyQueue : Queue := { msgs := [], cap := 256, closed := false }

/-- Whether a non-blocking `select { case q <- m: default: }` send would
succeed on queue `q`: the channel is open and its buffer has space. -/
def canSendQ (q : Queue) : Bool :=
  !q.closed && decide (q.msgs.length < q.cap)

/-- Whether the non-blocking send to client `c`'s channel succeeds (a missing
channel behaves like a nil channel: the send blocks, so the `default` branch
is taken). -/
def canSend (h : Hub) (c : Client) : Bool :=
  match assocFind c.cid h.queues with
  | some q => canSendQ q
  | none => false

/-- `c.send <- m` succeeding: the message is appended to the buffer. -/
def enqueueMsg (h : Hub) (cid : Nat) (m : Message) : Hub :=
  match assocFind cid h.queues with
  | some q => { h with queues := assocUpdate cid { q with msgs := q.msgs ++ [m] } h.queues }
  | none => h

/-- `close(c.send)`. -/
def closeQueue (h : Hub) (cid : Nat) : Hub :=
  match assocFind cid h.queues with
  | some q => { h with queues := assocUpdate cid { q with closed := true } h.queues }
  | none => h

/-! ### Hub operations from `websocket.go` -/

/-- The register case of `Hub.Run` (websocket.go:287-290):
`h.clients[client] = true; h.clientsByUserID[client.UserID] = client`. -/
def registerStep (h : Hub) (c : Client) : Hub :=
  { h with clients := setInsert c h.clients,
           clientsByUserID := assocUpdate c.userId c h.clientsByUserID }

/-- `HandleConnections` (websocket.go:476-483): builds the `Client` with a
fresh 256-capacity `send` channel, then sends it on `hub.register`, which
`Hub.Run` processes with `registerStep`. -/
def connectClient (h : Hub) (c : Client) : Hub :=
  registerStep { h with queues := assocUpdate c.cid emptyQueue h.queues } c

/-- `Hub.LeaveRoom` (websocket.go:256-264). -/
def leaveRoom (h : Hub) (rid : Nat) (c : Client) : Hub :=
  match assocFind rid h.roomClients with
  | none => h
  | some cs =>
      let cs1 := removeClient c cs
      if cs1.length = 0 then { h with roomClients := assocErase rid h.roomClients }
      else { h with roomClients := assocUpdate rid cs1 h.roomClients }

/-- The unregister case of `Hub.Run` (websocket.go:293-303): if the client is
registered, remove it from every room, delete it from both maps and close its
channel; otherwise do nothing. -/
def unregisterStep (h : Hub) (c : Client) : Hub :=
  if memClient c h.clients then
    let h1 := (h.roomClients.map Prod.fst).foldl (fun hh rid => leaveRoom hh rid c) h
    let h2 := { h1 with clients := removeClient c h1.clients,
                        clientsByUserID := assocErase c.userId h1.clientsByUserID }
    closeQueue h2 c.cid
  else h

/-- The failure branch of `Hub.BroadcastToRoom`'s `select` (websocket.go:272-277):
`close(client.send); delete(clients, client); delete(h.clients, client);
delete(h.clientsByUserID, client.UserID)` where `clients` is
`h.roomClients[roomID]`. -/
def evictClientRoom (h : Hub) (rid : Nat) (c : Client) : Hub :=
  let h1 := closeQueue h c.cid
  let h2 :=
    match assocFind rid h1.roomClients with
    | some cs => { h1 with roomClients := assocUpdate rid (removeClient c cs) h1.roomClients }
    | none => h1
  { h2 with clients := removeClient c h2.clients,
            clientsByUserID := assocErase c.userId h2.clientsByUserID }

/-- The loop body of `Hub.BroadcastToRoom` applied to the (snapshot of the)
room's client set: non-blocking send to each client, evicting on failure. -/
def roomFanout (rid : Nat) (m : Message) : Hub → List Client → Hub
  | h, [] => h
  | h, c :: rest =>
      roomFanout rid m
        (if canSend h c then enqueueMsg h c.cid m else evictClientRoom h rid c) rest

/-- `Hub.BroadcastToRoom` (websocket.go:267-280). -/
def broadcastToRoom (h : Hub) (rid : Nat) (m : Message) : Hub :=
  match assocFind rid h.roomClients with
  | none => h
  | some cs => roomFanout rid m h cs

/-- The failure branch of the private-message `select` in `Hub.Run`'s
broadcast case (websocket.go:312-315): close the channel and delete from
`clients` and `clientsByUserID` (the room map is not touched). -/
def evictClientPriv (h : Hub) (c : Client) : Hub :=
  let h1 := closeQueue h c.cid
  { h1 with clients := removeClient c h1.clients,
            clientsByUserID := assocErase c.userId h1.clientsByUserID }

/-- One `select`-send of the private-message path. -/
def sendOrEvictPriv (h : Hub) (c : Client) (m : Message) : Hub :=
  if canSend h c then enqueueMsg h c.cid m else evictClientPriv h c

/-- The broadcast case of `Hub.Run` (websocket.go:306-337): if the message
carries a recipient id, deliver to the recipient's and the sender's
connections looked up by user id; otherwise, if it carries a room id,
broadcast to the room; otherwise only log a warning. -/
def hubBroadcast (h : Hub) (m : Message) : Hub :=
  if m.recipientId ≠ nilObjectID then
    let h1 :=
      match assocFind m.recipientId h.clientsByUserID with
      | some rc => sendOrEvictPriv h rc m
      | none => h
    match assocFind m.senderId h1.clientsByUserID with
    | some sc => if sc.userId ≠ m.recipientId then sendOrEvictPriv h1 sc m else h1
    | none => h1
  else if m.roomId ≠ nilObjectID then broadcastToRoom h m.roomId m
  else h

/-! ### The message store (`backend/database`) -/

/-- Largest id occurring in the store (used to model server-side ObjectID
generation: a generated id is always fresh). -/
def maxId (db : Store) : Nat := db.foldr (fun m acc => max m.id acc) 0

/-- A fresh server-generated ObjectID for the store. -/
def freshId (db : Store) : Nat := maxId db + 1

/-- Whether some stored document already has `_id = i`. -/
def hasId (db : Store) (i : Nat) : Bool := db.any (fun m => decide (m.id = i))

/-- `database.InsertMessage` (mongodb.go:104-118) combined with the Mongo
`_id,omitempty` semantics of `models.Message.ID`: the function first forces
`IsRead = false` on the document, then inserts it.  If the document's `ID`
is the nil ObjectID the field is omitted and the server assigns a fresh
`_id`; otherwise the client-supplied `ID` is used as `_id` and the insert
fails on a duplicate key.  Returns the updated store and the `InsertedID`. -/
def insertMessage (db : Store) (m : Message) : Except Unit (Store × Nat) :=
  let doc := { m with isRead := false }
  let assigned := if doc.id = nilObjectID then freshId db else doc.id
  if hasId db assigned then Except.error ()
  else Except.ok (db ++ [{ doc with id := assigned }], assigned)

/-! ### `Client.readPump` per-frame processing (websocket.go:107-157) -/

/-- The room map entry consulted by the membership check
`clients, ok := c.hub.roomClients[msg.RoomID]; !ok || !clients[c]`. -/
def roomList (h : Hub) (rid : Nat) : List Client :=
  (assocFind rid h.roomClients).getD []

/-- Stamping of an inbound frame (websocket.go:125-133): the server
overwrites `SenderID`, `SenderUsername` and `Timestamp` from the connection's
own identity and the receipt time, and defaults an empty `Type` to
`MessageTypeChat`. -/
def stampMessage (c : Client) (now : Nat) (m : Message) : Message :=
  let m1 := { m with senderId := c.userId, senderUsername := c.username, timestamp := now }
  if m1.type = "" then { m1 with type := MessageTypeChat } else m1

/-- Outcome of one iteration of `Client.readPump`'s for-loop. -/
inductive ReadResult where
  /-- `continue`: the frame was logged and dropped, the loop (and the
  connection) goes on. -/
  | dropped
  /-- `return`: the loop exits, triggering unregistration via the deferred
  `c.hub.unregister <- c`. -/
  | stopped
  /-- The stamped, id-assigned message was sent on `c.hub.broadcast`. -/
  | queued (stamped : Message)
deriving DecidableEq

/-- One iteration of `Client.readPump`'s loop body (websocket.go:107-157) on
an already-read frame.  `frame = none` models a JSON unmarshal error;
`dbFail = true` models a transient failure of the Mongo insert (timeout,
connection error).  Returns the outcome together with the message store
after the iteration. -/
def readPumpStep (h : Hub) (db : Store) (c : Client) (now : Nat)
    (frame : Option Message) (dbFail : Bool) : ReadResult × Store :=
  match frame with
  | none => (ReadResult.dropped, db)
  | some raw =>
      let msg := stampMessage c now raw
      if msg.roomId ≠ nilObjectID ∧ memClient c (roomList h msg.roomId) = false then
        (ReadResult.dropped, db)
      else if dbFail then (ReadResult.stopped, db)
      else
        match insertMessage db msg with
        | Except.error _ => (ReadResult.stopped, db)
        | Except.ok (db1, aid) => (ReadResult.queued { msg with id := aid }, db1)

/-! ### Session bootstrap (`HandleConnections`, websocket.go:486-502) -/

/-- Insertion into a timestamp-descending list, modelling the Mongo sort
`bson.D ts -1` used by `GetMessages`. -/
def insertTsDesc (m : Message) : List Message → List Message
  | [] => [m]
  | x :: xs => if m.timestamp ≤ x.timestamp then x :: insertTsDesc m xs else m :: x :: xs

/-- Timestamp-descending sort of the whole store. -/
def sortByTsDesc : List Message → List Message
  | [] => []
  | x :: xs => insertTsDesc x (sortByTsDesc xs)

/-- `database.GetMessages(limit)` (the history read used by
`HandleConnections`): the most recent `limit` messages of the whole
`messages` collection, newest first — note: no room filter. -/
def getMessages (db : Store) (limit : Nat) : List Message :=
  (sortByTsDesc db).take limit

/-- The sequence of history messages the session-bootstrap goroutine sends to
a newly connected client (websocket.go:486-502): `GetMessages(50)`, sent in
reverse index order, i.e. oldest first.  (The 1-second per-item send timeout
is a real-time effect and is not modelled; this is the sequence sent when no
timeout fires.) -/
def bootstrapHistory (db : Store) : List Message :=
  (getMessages db 50).reverse

/-! ### Helper lemmas about `stampMessage` and `insertMessage` -/

theorem stampMessage_roomId (c : Client) (now : Nat) (m : Message) :
    (stampMessage c now m).roomId = m.roomId := by
  simp only [stampMessage]
  split <;> rfl

theorem mem_le_maxId (db : Store) (m : Message) (hm : m ∈ db) : m.id ≤ maxId db := by
  induction db with
  | nil => simp at hm
  | cons x xs ih =>
      rcases List.mem_cons.mp hm with rfl | hx
      · simp [maxId]
      · exact le_trans (ih hx) (by simp [maxId])

theorem hasId_freshId (db : Store) : hasId db (freshId db) = false := by
  rw [hasId, List.any_eq_false]
  intro m hm
  simp only [decide_eq_true_eq]
  intro hid
  have h1 : m.id ≤ maxId db := mem_le_maxId db m hm
  rw [hid] at h1
  have h2 : maxId db + 1 ≤ maxId db := h1
  omega

/-! ### Claim C10: InsertMessage forces the read flag to false -/

/-- C10: every message persisted through `InsertMessage` is stored with its
read flag forced to `false`, regardless of the `IsRead` value of the input
message: the inserted document is the input with `IsRead := false` (and with
the `_id` materialised, which for a message carrying a non-nil id is the
identity). -/
theorem insertMessage_forces_unread (db : Store) (m : Message) (db1 : Store) (aid : Nat)
    (hok : insertMessage db m = Except.ok (db1, aid)) :
    db1 = db ++ [{ m with isRead := false, id := aid }] ∧
    (m.id ≠ nilObjectID → aid = m.id ∧ db1 = db ++ [{ m with isRead := false }]) := by
  simp only [insertMessage] at hok
  by_cases hnil : m.id = nilObjectID
  · simp only [hnil, if_pos] at hok
    by_cases hdup : hasId db (freshId db)
    · simp [hdup] at hok
    · simp only [Bool.not_eq_true] at hdup
      simp [hdup] at hok
      refine ⟨?_, fun hne => absurd hnil hne⟩
      rw [← hok.1, ← hok.2]
  · simp only [if_neg hnil] at hok
    by_cases hdup : hasId db m.id
    · simp [hdup] at hok
    · simp only [Bool.not_eq_true] at hdup
      simp [hdup] at hok
      refine ⟨by rw [← hok.1, ← hok.2], fun _ => ⟨hok.2.symm, ?_⟩⟩
      rw [← hok.1]

/-- C10 witness: inserting a concrete message that (falsely) claims
`isRead = true` and carries id 7 stores it with `isRead = false`. -/
theorem insertMessage_forces_unread_witness :
    [(⟨7, "chat", 3, 4, "bob", 0, "x", 2, false⟩ : Message)] =
        [] ++ [{ (⟨7, "chat", 3, 4, "bob", 0, "x", 2, true⟩ : Message) with
                   isRead := false, id := 7 }] ∧
      ((⟨7, "chat", 3, 4, "bob", 0, "x", 2, true⟩ : Message).id ≠ nilObjectID →
        7 = (⟨7, "chat", 3, 4, "bob", 0, "x", 2, true⟩ : Message).id ∧
        [(⟨7, "chat", 3, 4, "bob", 0, "x", 2, false⟩ : Message)] =
          [] ++ [{ (⟨7, "chat", 3, 4, "bob", 0, "x", 2, true⟩ : Message) with
                     isRead := false }]) :=
  insertMessage_forces_unread [] ⟨7, "chat", 3, 4, "bob", 0, "x", 2, true⟩
    [⟨7, "chat", 3, 4, "bob", 0, "x", 2, false⟩] 7 rfl

/-! ### Claim C7: unknown room / non-member frames are dropped -/

/-- C7: an inbound frame whose (non-nil) room id is not a key of
`roomClients`, or whose sender is not in that room's client set, is dropped:
the store is unchanged (no persistence write), nothing is handed to the
broadcast channel, and the outcome is `continue` (`ReadResult.dropped`), so
the connection's read loop goes on.  (`memClient c (roomList h rid) = false`
is exactly the Go guard `!ok || !clients[c]`.) -/
theorem unknownRoom_frame_dropped (h : Hub) (db : Store) (c : Client) (now : Nat)
    (raw : Message) (dbFail : Bool)
    (hroom : raw.roomId ≠ nilObjectID)
    (hnm : memClient c (roomList h raw.roomId) = false) :
    readPumpStep h db c now (some raw) dbFail = (ReadResult.dropped, db) := by
  have hs : (stampMessage c now raw).roomId = raw.roomId := stampMessage_roomId c now raw
  simp only [readPumpStep, hs]
  rw [if_pos ⟨hroom, hnm⟩]

/-- C7 witness: a concrete frame for room 42 sent by a client not joined to
room 42 is dropped with the store untouched. -/
theorem unknownRoom_frame_dropped_witness :
    readPumpStep ⟨[], [], [], []⟩ [] ⟨1, 4, "alice"⟩ 5
        (some ⟨0, "", 42, 0, "", 0, "hi", 0, false⟩) false =
      (ReadResult.dropped, []) :=
  unknownRoom_frame_dropped ⟨[], [], [], []⟩ [] ⟨1, 4, "alice"⟩ 5
    ⟨0, "", 42, 0, "", 0, "hi", 0, false⟩ false (by decide) (by decide)

/-! ### Claim C8: persistence failure fails closed -/

/-- C8: when the Mongo insert for an accepted frame fails (either a
transient database failure, `dbFail = true`, or a duplicate-key error from
`insertMessage`), the message is not handed to the broadcast channel (the
outcome is not `queued`), the store is unchanged, and no retry happens (the
loop body exits with a single attempt; the code does `return`, so the sender
gets no application-level acknowledgment either way). -/
theorem persistFailure_failClosed (h : Hub) (db : Store) (c : Client) (now : Nat)
    (raw : Message) (dbFail : Bool)
    (hacc : ¬((stampMessage c now raw).roomId ≠ nilObjectID ∧
              memClient c (roomList h (stampMessage c now raw).roomId) = false))
    (hfail : dbFail = true ∨ insertMessage db (stampMessage c now raw) = Except.error ()) :
    readPumpStep h db c now (some raw) dbFail = (ReadResult.stopped, db) := by
  simp only [readPumpStep]
  rw [if_neg hacc]
  rcases hfail with hf | hf
  · rw [hf]
    rfl
  · cases dbFail with
    | true => rfl
    | false =>
        simp only [if_neg Bool.false_ne_true]
        rw [hf]

/-- C8 witness: a duplicate-id insert failure (the store already holds a
document with id 9 and the client-supplied frame carries id 9) leaves the
store unchanged and broadcasts nothing. -/
theorem persistFailure_failClosed_witness :
    readPumpStep ⟨[], [], [], []⟩ [⟨9, "chat", 0, 2, "bob", 0, "old", 1, false⟩]
        ⟨1, 4, "alice"⟩ 5 (some ⟨9, "", 0, 0, "", 0, "hi", 0, false⟩) false =
      (ReadResult.stopped, [⟨9, "chat", 0, 2, "bob", 0, "old", 1, false⟩]) :=
  persistFailure_failClosed ⟨[], [], [], []⟩ [⟨9, "chat", 0, 2, "bob", 0, "old", 1, false⟩]
    ⟨1, 4, "alice"⟩ 5 ⟨9, "", 0, 0, "", 0, "hi", 0, false⟩ false
    (by decide) (Or.inr rfl)

/-! ### Claim C6: which frame fields the server overrides -/

/-- C6 counterexample: two inbound frames read on the same connection under
identical conditions, differing only in the client-supplied `id` field
(0 vs 9), produce different results: `models.Message.ID` has bson tag
`_id,omitempty`, so a non-nil client-supplied id is sent to Mongo as the
document `_id` and comes back as `result.InsertedID`, which the code then
stamps onto the broadcast message (websocket.go:153).  Hence the stamped
message is not independent of the frame's `id` field, refuting the claim. -/
theorem stampedResult_depends_on_frame_id :
    readPumpStep ⟨[], [], [], []⟩ [] ⟨1, 4, "alice"⟩ 5
        (some ⟨0, "", 0, 0, "", 0, "hi", 0, false⟩) false ≠
      readPumpStep ⟨[], [], [], []⟩ [] ⟨1, 4, "alice"⟩ 5
        (some ⟨9, "", 0, 0, "", 0, "hi", 0, false⟩) false := by
  decide

/-- C6 amended: the persisted and broadcast message is independent of the
client-supplied `senderId`, `senderUsername` and `timestamp` fields (the
server overwrites all three from the connection's identity and the receipt
time), but not of a client-supplied `id`: two frames read on the same
connection under the same conditions that agree on every field except
`senderId`, `senderUsername` and `timestamp` yield the same result. -/
theorem stamped_independent_of_identity_fields (h : Hub) (db : Store) (c : Client)
    (now : Nat) (dbFail : Bool) (f1 f2 : Message)
    (hid : f1.id = f2.id) (htype : f1.type = f2.type) (hroom : f1.roomId = f2.roomId)
    (hrec : f1.recipientId = f2.recipientId) (hcontent : f1.content = f2.content)
    (hread : f1.isRead = f2.isRead) :
    readPumpStep h db c now (some f1) dbFail = readPumpStep h db c now (some f2) dbFail := by
  have hstamp : stampMessage c now f1 = stampMessage c now f2 := by
    cases f1
    cases f2
    simp only [Message.mk.injEq] at hid htype hroom hrec hcontent hread ⊢
    simp_all [stampMessage]
  simp only [readPumpStep, hstamp]

/-- C6 amended, witness: two concrete frames differing only in their forged
`senderId`, `senderUsername` and `timestamp` fields produce identical
results. -/
theorem stamped_independent_of_identity_fields_witness :
    readPumpStep ⟨[], [], [], []⟩ [] ⟨1, 4, "alice"⟩ 5
        (some ⟨0, "", 0, 99, "mallory", 0, "hi", 1234, false⟩) false =
      readPumpStep ⟨[], [], [], []⟩ [] ⟨1, 4, "alice"⟩ 5
        (some ⟨0, "", 0, 0, "", 0, "hi", 0, false⟩) false :=
  stamped_independent_of_identity_fields ⟨[], [], [], []⟩ [] ⟨1, 4, "alice"⟩ 5 false
    ⟨0, "", 0, 99, "mallory", 0, "hi", 1234, false⟩ ⟨0, "", 0, 0, "", 0, "hi", 0, false⟩
    rfl rfl rfl rfl rfl rfl

/-! ### Field-preservation lemmas for register / unregister -/

theorem leaveRoom_clients (h : Hub) (rid : Nat) (c : Client) :
    (leaveRoom h rid c).clients = h.clients := by
  cases hfind : assocFind rid h.roomClients <;> simp [leaveRoom, hfind]
  split <;> rfl

theorem leaveRoom_byUser (h : Hub) (rid : Nat) (c : Client) :
    (leaveRoom h rid c).clientsByUserID = h.clientsByUserID := by
  cases hfind : assocFind rid h.roomClients <;> simp [leaveRoom, hfind]
  split <;> rfl

theorem leaveRoom_queues (h : Hub) (rid : Nat) (c : Client) :
    (leaveRoom h rid c).queues = h.queues := by
  cases hfind : assocFind rid h.roomClients <;> simp [leaveRoom, hfind]
  split <;> rfl

theorem foldLeave_clients (c : Client) (ks : List Nat) (h : Hub) :
    (ks.foldl (fun hh rid => leaveRoom hh rid c) h).clients = h.clients := by
  induction ks generalizing h with
  | nil => rfl
  | cons k ks ih => rw [List.foldl_cons, ih, leaveRoom_clients]

theorem foldLeave_byUser (c : Client) (ks : List Nat) (h : Hub) :
    (ks.foldl (fun hh rid => leaveRoom hh rid c) h).clientsByUserID = h.clientsByUserID := by
  induction ks generalizing h with
  | nil => rfl
  | cons k ks ih => rw [List.foldl_cons, ih, leaveRoom_byUser]

theorem closeQueue_clients (h : Hub) (cid : Nat) :
    (closeQueue h cid).clients = h.clients := by
  cases hfind : assocFind cid h.queues <;> simp [closeQueue, hfind]

theorem closeQueue_byUser (h : Hub) (cid : Nat) :
    (closeQueue h cid).clientsByUserID = h.clientsByUserID := by
  cases hfind : assocFind cid h.queues <;> simp [closeQueue, hfind]

/-! ### Claim C1: registering a duplicate user id does not evict -/

/-- C1 counterexample: starting from an empty hub, connect client c1
(cid 1, user id 5) and then client c2 (cid 2, same user id 5).  The claim
says the register request for c2 must first evict c1 (close its queue,
remove it from both maps).  In fact the register case of `Hub.Run`
(websocket.go:287-290) performs no eviction: afterwards both c1 and c2 are
registered in the `clients` map — two live connections for user id 5 — and
c1's queue is still the untouched open `emptyQueue`. -/
theorem register_does_not_evict_cex :
    (⟨1, 5, "alice"⟩ : Client) ∈
        (connectClient (connectClient ⟨[], [], [], []⟩ ⟨1, 5, "alice"⟩) ⟨2, 5, "alice"⟩).clients ∧
      (⟨2, 5, "alice"⟩ : Client) ∈
        (connectClient (connectClient ⟨[], [], [], []⟩ ⟨1, 5, "alice"⟩) ⟨2, 5, "alice"⟩).clients ∧
      assocFind 1
          (connectClient (connectClient ⟨[], [], [], []⟩ ⟨1, 5, "alice"⟩) ⟨2, 5, "alice"⟩).queues =
        some emptyQueue := by
  decide

/-- C1 amended: registering a second Connection for a user id does not evict
the first.  The register case only overwrites the `clientsByUserID` entry
(so lookup by user id yields the newest Connection) and adds the new Client
to the `clients` set; the older Connection stays in the `clients` set with
its queue open.  The Registry can therefore hold several live Connections
for one user id. -/
theorem register_overwrites_without_eviction (h : Hub) (c1 c2 : Client)
    (_huid : c1.userId = c2.userId) (hcid : c1.cid ≠ c2.cid) :
    assocFind c2.userId
        (connectClient (connectClient h c1) c2).clientsByUserID = some c2 ∧
      c1 ∈ (connectClient (connectClient h c1) c2).clients ∧
      c2 ∈ (connectClient (connectClient h c1) c2).clients ∧
      assocFind c1.cid (connectClient (connectClient h c1) c2).queues = some emptyQueue := by
  refine ⟨?_, ?_, ?_, ?_⟩
  · exact assocFind_update_self c2.userId c2 _
  · exact (mem_setInsert c1 c2 _).mpr (Or.inr ((mem_setInsert c1 c1 h.clients).mpr (Or.inl rfl)))
  · exact (mem_setInsert c2 c2 _).mpr (Or.inl rfl)
  · rw [show (connectClient (connectClient h c1) c2).queues =
        assocUpdate c2.cid emptyQueue (assocUpdate c1.cid emptyQueue h.queues) from rfl,
      assocFind_update_ne c1.cid c2.cid emptyQueue _ hcid]
    exact assocFind_update_self c1.cid emptyQueue h.queues

/-- C1 amended, witness. -/
theorem register_overwrites_without_eviction_witness :
    assocFind (5 : Nat)
        (connectClient (connectClient ⟨[], [], [], []⟩ ⟨1, 5, "a"⟩) ⟨2, 5, "a"⟩).clientsByUserID =
        some ⟨2, 5, "a"⟩ ∧
      (⟨1, 5, "a"⟩ : Client) ∈
        (connectClient (connectClient ⟨[], [], [], []⟩ ⟨1, 5, "a"⟩) ⟨2, 5, "a"⟩).clients ∧
      (⟨2, 5, "a"⟩ : Client) ∈
        (connectClient (connectClient ⟨[], [], [], []⟩ ⟨1, 5, "a"⟩) ⟨2, 5, "a"⟩).clients ∧
      assocFind 1
          (connectClient (connectClient ⟨[], [], [], []⟩ ⟨1, 5, "a"⟩) ⟨2, 5, "a"⟩).queues =
        some emptyQueue :=
  register_overwrites_without_eviction ⟨[], [], [], []⟩ ⟨1, 5, "a"⟩ ⟨2, 5, "a"⟩ rfl (by decide)

/-! ### Claim C9: unconditional clientsByUserID delete on unregister -/

/-- C9: unregistering a Client that is still in the `clients` set deletes
the `clientsByUserID` entry for its user id unconditionally — even when, as
after a duplicate registration, that entry points to the newer Client
sharing the user id.  Concretely: after registering c1 and then c2 with the
same user id, the entry points to c2; unregistering c1 removes that entry
(lookup by the user id then finds nothing) although c2 is still live in the
`clients` set. -/
theorem unregister_deletes_newer_uid_entry (h : Hub) (c1 c2 : Client)
    (huid : c1.userId = c2.userId) (hcid : c1.cid ≠ c2.cid) :
    assocFind c1.userId
        (connectClient (connectClient h c1) c2).clientsByUserID = some c2 ∧
      assocFind c1.userId
          (unregisterStep (connectClient (connectClient h c1) c2) c1).clientsByUserID = none ∧
      c2 ∈ (unregisterStep (connectClient (connectClient h c1) c2) c1).clients := by
  have hne : c1 ≠ c2 := fun he => hcid (congrArg Client.cid he)
  set h2 := connectClient (connectClient h c1) c2 with hh2
  have hmem1 : c1 ∈ h2.clients :=
    (mem_setInsert c1 c2 _).mpr (Or.inr ((mem_setInsert c1 c1 h.clients).mpr (Or.inl rfl)))
  have hfound : assocFind c1.userId h2.clientsByUserID = some c2 := by
    rw [huid]
    exact assocFind_update_self c2.userId c2 _
  refine ⟨hfound, ?_, ?_⟩
  · rw [unregisterStep, if_pos ((memClient_iff c1 h2.clients).mpr hmem1), closeQueue_byUser]
    simp only
    rw [assocFind_erase_self]
  · rw [unregisterStep, if_pos ((memClient_iff c1 h2.clients).mpr hmem1), closeQueue_clients]
    simp only
    rw [foldLeave_clients, mem_removeClient_of_ne c2 c1 _ (Ne.symm hne)]
    exact (mem_setInsert c2 c2 _).mpr (Or.inl rfl)

/-- C9 witness. -/
theorem unregister_deletes_newer_uid_entry_witness :
    assocFind (5 : Nat)
        (connectClient (connectClient ⟨[], [], [], []⟩ ⟨1, 5, "a"⟩) ⟨2, 5, "a"⟩).clientsByUserID =
        some ⟨2, 5, "a"⟩ ∧
      assocFind (5 : Nat)
          (unregisterStep
            (connectClient (connectClient ⟨[], [], [], []⟩ ⟨1, 5, "a"⟩) ⟨2, 5, "a"⟩)
            ⟨1, 5, "a"⟩).clientsByUserID = none ∧
      (⟨2, 5, "a"⟩ : Client) ∈
        (unregisterStep
          (connectClient (connectClient ⟨[], [], [], []⟩ ⟨1, 5, "a"⟩) ⟨2, 5, "a"⟩)
          ⟨1, 5, "a"⟩).clients :=
  unregister_deletes_newer_uid_entry ⟨[], [], [], []⟩ ⟨1, 5, "a"⟩ ⟨2, 5, "a"⟩ rfl (by decide)

/-! ### Sorting lemmas for the bootstrap history -/

theorem perm_insertTsDesc (m : Message) (l : List Message) :
    (insertTsDesc m l).Perm (m :: l) := by
  induction l with
  | nil => exact List.Perm.refl _
  | cons x xs ih =>
      by_cases hle : m.timestamp ≤ x.timestamp
      · simp only [insertTsDesc, if_pos hle]
        exact (List.Perm.cons x ih).trans (List.Perm.swap m x xs)
      · simp only [insertTsDesc, if_neg hle]
        exact List.Perm.refl _

theorem pairwise_insertTsDesc (m : Message) (l : List Message)
    (hl : l.Pairwise (fun a b => b.timestamp ≤ a.timestamp)) :
    (insertTsDesc m l).Pairwise (fun a b => b.timestamp ≤ a.timestamp) := by
  induction l with
  | nil => simp [insertTsDesc]
  | cons x xs ih =>
      rcases List.pairwise_cons.mp hl with ⟨hx, hxs⟩
      by_cases hle : m.timestamp ≤ x.timestamp
      · simp only [insertTsDesc, if_pos hle]
        refine List.pairwise_cons.mpr ⟨?_, ih hxs⟩
        intro y hy
        have hmem : y ∈ m :: xs := (perm_insertTsDesc m xs).mem_iff.mp hy
        rcases List.mem_cons.mp hmem with rfl | hyxs
        · exact hle
        · exact hx y hyxs
      · simp only [insertTsDesc, if_neg hle]
        have hgt : x.timestamp ≤ m.timestamp := le_of_not_le hle
        refine List.pairwise_cons.mpr ⟨?_, hl⟩
        intro y hy
        rcases List.mem_cons.mp hy with rfl | hyxs
        · exact hgt
        · exact le_trans (hx y hyxs) hgt

theorem sortByTsDesc_perm (l : List Message) : (sortByTsDesc l).Perm l := by
  induction l with
  | nil => exact List.Perm.refl _
  | cons x xs ih => exact (perm_insertTsDesc x (sortByTsDesc xs)).trans (ih.cons x)

theorem sortByTsDesc_pairwise (l : List Message) :
    (sortByTsDesc l).Pairwise (fun a b => b.timestamp ≤ a.timestamp) := by
  induction l with
  | nil => simp [sortByTsDesc]
  | cons x xs ih => exact pairwise_insertTsDesc x _ ih

/-! ### Claim C3: session-bootstrap history is global, not room-scoped -/

/-- C3 counterexample: the bootstrap calls `database.GetMessages(50)`, which
queries the whole `messages` collection with an empty filter — there is no
room parameter anywhere in `HandleConnections`.  Concretely, with a store
holding exactly one message, which belongs to room 77, a client joining
room 55 (a room with zero prior messages) is sent that room-77 message:
the enqueued history is not "the most recent messages of the room the
client is joining" (for room 55 it should be empty). -/
theorem bootstrap_history_not_room_scoped_cex :
    bootstrapHistory [⟨1, "chat", 77, 3, "bob", 0, "x", 10, false⟩] =
        [⟨1, "chat", 77, 3, "bob", 0, "x", 10, false⟩] ∧
      (⟨1, "chat", 77, 3, "bob", 0, "x", 10, false⟩ : Message).roomId ≠ 55 ∧
      List.filter (fun m => decide (m.roomId = 55))
          [(⟨1, "chat", 77, 3, "bob", 0, "x", 10, false⟩ : Message)] = [] := by
  decide

/-- C3 amended: the session bootstrap enqueues, oldest first and before any
new live message, the most recent at most 50 messages of the ENTIRE message
store — all rooms and private messages mixed together, not the room the
client is joining.  In particular, when the whole store holds at most 50
messages, the client receives exactly the full store content in
chronological (timestamp-ascending) order. -/
theorem bootstrapHistory_global (db : Store) (hlen : db.length ≤ 50) :
    (bootstrapHistory db).Pairwise (fun a b => a.timestamp ≤ b.timestamp) ∧
      (bootstrapHistory db).Perm db := by
  have hsortlen : (sortByTsDesc db).length = db.length := (sortByTsDesc_perm db).length_eq
  have htake : (sortByTsDesc db).take 50 = sortByTsDesc db :=
    List.take_of_length_le (hsortlen ▸ hlen)
  constructor
  · rw [bootstrapHistory, getMessages, List.pairwise_reverse]
    exact ((sortByTsDesc_pairwise db).sublist (List.take_sublist 50 (sortByTsDesc db)))
  · rw [bootstrapHistory, getMessages, htake]
    exact (List.reverse_perm (sortByTsDesc db)).trans (sortByTsDesc_perm db)

/-- C3 amended, witness: a three-message store (timestamps 30, 10, 20,
spread over two different rooms) is replayed in full, in chronological
order, to any connecting client. -/
theorem bootstrapHistory_global_witness :
    (bootstrapHistory [⟨1, "chat", 77, 3, "b", 0, "x", 30, false⟩,
        ⟨2, "chat", 55, 4, "c", 0, "y", 10, false⟩,
        ⟨3, "chat", 55, 4, "c", 0, "z", 20, false⟩]).Pairwise
        (fun a b => a.timestamp ≤ b.timestamp) ∧
      (bootstrapHistory [⟨1, "chat", 77, 3, "b", 0, "x", 30, false⟩,
          ⟨2, "chat", 55, 4, "c", 0, "y", 10, false⟩,
          ⟨3, "chat", 55, 4, "c", 0, "z", 20, false⟩]).Perm
        [⟨1, "chat", 77, 3, "b", 0, "x", 30, false⟩,
          ⟨2, "chat", 55, 4, "c", 0, "y", 10, false⟩,
          ⟨3, "chat", 55, 4, "c", 0, "z", 20, false⟩] :=
  bootstrapHistory_global
    [⟨1, "chat", 77, 3, "b", 0, "x", 30, false⟩,
      ⟨2, "chat", 55, 4, "c", 0, "y", 10, false⟩,
      ⟨3, "chat", 55, 4, "c", 0, "z", 20, false⟩] (by decide)

/-! ### Effect lemmas for the broadcast fan-out -/

theorem enqueueMsg_clients (h : Hub) (cid : Nat) (m : Message) :
    (enqueueMsg h cid m).clients = h.clients := by
  cases hf : assocFind cid h.queues <;> simp [enqueueMsg, hf]

theorem enqueueMsg_byUser (h : Hub) (cid : Nat) (m : Message) :
    (enqueueMsg h cid m).clientsByUserID = h.clientsByUserID := by
  cases hf : assocFind cid h.queues <;> simp [enqueueMsg, hf]

theorem enqueueMsg_queues_ne (h : Hub) (cid x : Nat) (m : Message) (hx : cid ≠ x) :
    assocFind x (enqueueMsg h cid m).queues = assocFind x h.queues := by
  cases hf : assocFind cid h.queues
  · simp [enqueueMsg, hf]
  · simp [enqueueMsg, hf, assocFind_update_ne x cid _ _ (Ne.symm hx)]

theorem enqueueMsg_queues_self (h : Hub) (cid : Nat) (m : Message) (q : Queue)
    (hq : assocFind cid h.queues = some q) :
    assocFind cid (enqueueMsg h cid m).queues = some { q with msgs := q.msgs ++ [m] } := by
  simp [enqueueMsg, hq, assocFind_update_self]

theorem closeQueue_queues_ne (h : Hub) (cid x : Nat) (hx : cid ≠ x) :
    assocFind x (closeQueue h cid).queues = assocFind x h.queues := by
  cases hf : assocFind cid h.queues
  · simp [closeQueue, hf]
  · simp [closeQueue, hf, assocFind_update_ne x cid _ _ (Ne.symm hx)]

theorem closeQueue_queues_self (h : Hub) (cid : Nat) (q : Queue)
    (hq : assocFind cid h.queues = some q) :
    assocFind cid (closeQueue h cid).queues = some { q with closed := true } := by
  simp [closeQueue, hq, assocFind_update_self]

theorem evictClientRoom_queues (h : Hub) (rid : Nat) (c : Client) :
    (evictClientRoom h rid c).queues = (closeQueue h c.cid).queues := by
  simp only [evictClientRoom]
  cases hf : assocFind rid (closeQueue h c.cid).roomClients <;> simp [hf]

theorem evictClientRoom_clients (h : Hub) (rid : Nat) (c : Client) :
    (evictClientRoom h rid c).clients = removeClient c h.clients := by
  simp only [evictClientRoom]
  cases hf : assocFind rid (closeQueue h c.cid).roomClients <;>
    simp [hf, closeQueue_clients]

theorem evictClientRoom_byUser (h : Hub) (rid : Nat) (c : Client) :
    (evictClientRoom h rid c).clientsByUserID = assocErase c.userId h.clientsByUserID := by
  simp only [evictClientRoom]
  cases hf : assocFind rid (closeQueue h c.cid).roomClients <;>
    simp [hf, closeQueue_byUser]

theorem evictClientRoom_queues_ne (h : Hub) (rid : Nat) (c : Client) (x : Nat)
    (hx : c.cid ≠ x) :
    assocFind x (evictClientRoom h rid c).queues = assocFind x h.queues := by
  rw [evictClientRoom_queues]
  exact closeQueue_queues_ne h c.cid x hx

/-! ### Fan-out lemmas (`roomFanout`) -/

theorem roomFanout_queues_ne (rid : Nat) (m : Message) (cs : List Client) (h : Hub)
    (x : Nat) (hx : ∀ c ∈ cs, c.cid ≠ x) :
    assocFind x (roomFanout rid m h cs).queues = assocFind x h.queues := by
  induction cs generalizing h with
  | nil => rfl
  | cons c rest ih =>
      have hc : c.cid ≠ x := hx c (List.mem_cons_self c rest)
      have hrest : ∀ d ∈ rest, d.cid ≠ x := fun d hd => hx d (List.mem_cons_of_mem c hd)
      simp only [roomFanout]
      rw [ih _ hrest]
      by_cases hcs : canSend h c
      · rw [if_pos hcs]
        exact enqueueMsg_queues_ne h c.cid x m hc
      · rw [if_neg hcs]
        exact evictClientRoom_queues_ne h rid c x hc

theorem roomFanout_clients_sub (rid : Nat) (m : Message) (cs : List Client) (h : Hub)
    (x : Client) (hx : x ∈ (roomFanout rid m h cs).clients) : x ∈ h.clients := by
  induction cs generalizing h with
  | nil => exact hx
  | cons c rest ih =>
      simp only [roomFanout] at hx
      have h1 := ih _ hx
      by_cases hcs : canSend h c
      · rwa [if_pos hcs, enqueueMsg_clients] at h1
      · rw [if_neg hcs, evictClientRoom_clients] at h1
        exact mem_of_mem_removeClient x c _ h1

theorem roomFanout_byUser_none (rid : Nat) (m : Message) (cs : List Client) (h : Hub)
    (k : Nat) (hk : assocFind k h.clientsByUserID = none) :
    assocFind k (roomFanout rid m h cs).clientsByUserID = none := by
  induction cs generalizing h with
  | nil => exact hk
  | cons c rest ih =>
      simp only [roomFanout]
      apply ih
      by_cases hcs : canSend h c
      · rwa [if_pos hcs, enqueueMsg_byUser]
      · rw [if_neg hcs, evictClientRoom_byUser]
        by_cases hkc : k = c.userId
        · rw [hkc]
          exact assocFind_erase_self _ _
        · rw [assocFind_erase_ne k c.userId _ hkc]
          exact hk

theorem roomFanout_member (rid : Nat) (m : Message) (cs : List Client) (h : Hub)
    (hnd : (cs.map (fun c => c.cid)).Nodup) (c : Client) (hc : c ∈ cs) (q : Queue)
    (hq : assocFind c.cid h.queues = some q) :
    (canSendQ q = true →
        assocFind c.cid (roomFanout rid m h cs).queues =
          some { q with msgs := q.msgs ++ [m] }) ∧
      (canSendQ q = false →
        assocFind c.cid (roomFanout rid m h cs).queues = some { q with closed := true } ∧
          c ∉ (roomFanout rid m h cs).clients ∧
          assocFind c.userId (roomFanout rid m h cs).clientsByUserID = none) := by
  induction cs generalizing h with
  | nil => simp at hc
  | cons d rest ih =>
      have hndrest : (rest.map (fun c => c.cid)).Nodup := (List.nodup_cons.mp hnd).2
      have hdnotin : d.cid ∉ rest.map (fun c => c.cid) := (List.nodup_cons.mp hnd).1
      rcases List.mem_cons.mp hc with rfl | hcrest
      · have hrestne : ∀ e ∈ rest, e.cid ≠ c.cid := by
          intro e he heq
          exact hdnotin (heq ▸ List.mem_map_of_mem (fun x => x.cid) he)
        have hcansend : canSend h c = canSendQ q := by simp [canSend, hq]
        constructor
        · intro hok
          have hcs : canSend h c = true := by rw [hcansend, hok]
          simp only [roomFanout]
          rw [if_pos hcs, roomFanout_queues_ne rid m rest _ c.cid hrestne]
          exact enqueueMsg_queues_self h c.cid m q hq
        · intro hfail
          have hcs : canSend h c = false := by rw [hcansend, hfail]
          simp only [roomFanout]
          rw [if_neg (by rw [hcs]; exact Bool.false_ne_true)]
          refine ⟨?_, ?_, ?_⟩
          · rw [roomFanout_queues_ne rid m rest _ c.cid hrestne, evictClientRoom_queues]
            exact closeQueue_queues_self h c.cid q hq
          · intro hmem
            have h1 := roomFanout_clients_sub rid m rest _ c hmem
            rw [evictClientRoom_clients] at h1
            exact not_mem_removeClient c h.clients h1
          · apply roomFanout_byUser_none
            rw [evictClientRoom_byUser]
            exact assocFind_erase_self c.userId h.clientsByUserID
      · have hdc : d.cid ≠ c.cid := by
          intro heq
          exact hdnotin (heq ▸ List.mem_map_of_mem (fun x => x.cid) hcrest)
        simp only [roomFanout]
        by_cases hcs : canSend h d
        · rw [if_pos hcs]
          exact ih _ hndrest hcrest
            (by rw [enqueueMsg_queues_ne h d.cid c.cid m hdc]; exact hq)
        · rw [if_neg hcs]
          exact ih _ hndrest hcrest
            (by rw [evictClientRoom_queues_ne h rid d c.cid hdc]; exact hq)

/-- On a message with no recipient id and a non-nil room id, the broadcast
case of `Hub.Run` reduces to `BroadcastToRoom`'s fan-out over the room's
current client set. -/
theorem hubBroadcast_room (h : Hub) (m : Message)
    (hrec : m.recipientId = nilObjectID) (hroom : m.roomId ≠ nilObjectID)
    (cs : List Client) (hcs : assocFind m.roomId h.roomClients = some cs) :
    hubBroadcast h m = roomFanout m.roomId m h cs := by
  simp only [hubBroadcast]
  rw [if_neg (fun hne => hne hrec), if_pos hroom]
  simp [broadcastToRoom, hcs]

/-! ### Claim C2: broadcast routing is not room-scoped when a recipient id is present -/

/-- The hub used in the C2 counterexample: sender ⟨1,1,a⟩ and ⟨2,2,b⟩ are
the two clients joined to room 55; ⟨3,9,r⟩ is connected but *not* a member
of room 55. -/
def hubC2 : Hub :=
  ⟨[⟨1, 1, "a"⟩, ⟨2, 2, "b"⟩, ⟨3, 9, "r"⟩],
    [(1, ⟨1, 1, "a"⟩), (2, ⟨2, 2, "b"⟩), (9, ⟨3, 9, "r"⟩)],
    [(55, [⟨1, 1, "a"⟩, ⟨2, 2, "b"⟩])],
    [(1, emptyQueue), (2, emptyQueue), (3, emptyQueue)]⟩

/-- The C2 counterexample message: addressed to room 55 but carrying
recipient user id 9. -/
def msgC2 : Message := ⟨0, "chat", 55, 1, "a", 9, "hi", 5, false⟩

/-- C2 counterexample: a message addressed to room 55 (participants: clients
1 and 2) that also carries recipient user id 9 is routed by the
`RecipientID != NilObjectID` branch of `Hub.Run` (websocket.go:307), not by
room: client 3 — which has a live connection but is NOT a member of room
55 — receives the message, while room-member client 2 — live — does not.
This refutes "delivers to exactly the live members of the room …
regardless of any recipient user id carried by the message". -/
theorem broadcast_recipient_overrides_room_cex :
    assocFind 3 (hubBroadcast hubC2 msgC2).queues = some ⟨[msgC2], 256, false⟩ ∧
      assocFind 2 (hubBroadcast hubC2 msgC2).queues = some ⟨[], 256, false⟩ ∧
      memClient ⟨3, 9, "r"⟩ (roomList hubC2 55) = false := by
  decide

/-- C2 amended: for every message with NO recipient user id
(`RecipientID = NilObjectID`) addressed to a room, the Hub delivers the
message to exactly the clients currently joined to that room in
`roomClients` (each such client with an open, non-full queue receives it;
the queue of every client outside the room is untouched, so non-members
never receive it).  Messages carrying a non-nil recipient id are instead
routed to the recipient's and sender's connections by user id. -/
theorem roomBroadcast_scoped (h : Hub) (m : Message)
    (hrec : m.recipientId = nilObjectID) (hroom : m.roomId ≠ nilObjectID)
    (cs : List Client) (hcs : assocFind m.roomId h.roomClients = some cs)
    (hnd : (cs.map (fun c => c.cid)).Nodup) :
    (∀ x : Nat, (∀ d ∈ cs, d.cid ≠ x) →
        assocFind x (hubBroadcast h m).queues = assocFind x h.queues) ∧
      (∀ d ∈ cs, ∀ qd : Queue, assocFind d.cid h.queues = some qd →
        canSendQ qd = true →
        assocFind d.cid (hubBroadcast h m).queues =
          some { qd with msgs := qd.msgs ++ [m] }) := by
  rw [hubBroadcast_room h m hrec hroom cs hcs]
  exact ⟨fun x hx => roomFanout_queues_ne m.roomId m cs h x hx,
    fun d hd qd hqd hok => (roomFanout_member m.roomId m cs h hnd d hd qd hqd).1 hok⟩

/-- C2 amended, witness: in `hubC2`, the same message with its recipient id
cleared is delivered to room-members 1 and 2 and leaves non-member client
3's queue untouched. -/
theorem roomBroadcast_scoped_witness :
    assocFind 2 (hubBroadcast hubC2 ⟨0, "chat", 55, 1, "a", 0, "hi", 5, false⟩).queues =
        some { emptyQueue with msgs := emptyQueue.msgs ++
                 [⟨0, "chat", 55, 1, "a", 0, "hi", 5, false⟩] } ∧
      assocFind 3 (hubBroadcast hubC2 ⟨0, "chat", 55, 1, "a", 0, "hi", 5, false⟩).queues =
        assocFind 3 hubC2.queues := by
  have h := roomBroadcast_scoped hubC2 ⟨0, "chat", 55, 1, "a", 0, "hi", 5, false⟩ rfl
    (by decide) [⟨1, 1, "a"⟩, ⟨2, 2, "b"⟩] rfl (by decide)
  exact ⟨h.2 ⟨2, 2, "b"⟩ (by decide) emptyQueue rfl rfl, h.1 3 (by decide)⟩

/-! ### Claim C5: a full queue is evicted within one broadcast attempt -/

/-- C5: during one room broadcast fan-out, every targeted client whose
outbound queue is open but full at send time fails the non-blocking send
and is evicted within that same broadcast attempt — its queue is closed and
it is removed from both Registry maps (`clients` membership gone,
`clientsByUserID` lookup of its user id finds nothing) — while every other
targeted client with queue space still receives the message. -/
theorem slowConsumer_evicted (h : Hub) (m : Message)
    (hrec : m.recipientId = nilObjectID) (hroom : m.roomId ≠ nilObjectID)
    (cs : List Client) (hcs : assocFind m.roomId h.roomClients = some cs)
    (hnd : (cs.map (fun c => c.cid)).Nodup)
    (c : Client) (hc : c ∈ cs) (q : Queue) (hq : assocFind c.cid h.queues = some q)
    (hopen : q.closed = false) (hfull : q.cap ≤ q.msgs.length) :
    assocFind c.cid (hubBroadcast h m).queues = some { q with closed := true } ∧
      c ∉ (hubBroadcast h m).clients ∧
      assocFind c.userId (hubBroadcast h m).clientsByUserID = none ∧
      (∀ d ∈ cs, ∀ qd : Queue, assocFind d.cid h.queues = some qd →
        canSendQ qd = true →
        assocFind d.cid (hubBroadcast h m).queues =
          some { qd with msgs := qd.msgs ++ [m] }) := by
  have hnl : ¬q.msgs.length < q.cap := Nat.not_lt.mpr hfull
  have hcsq : canSendQ q = false := by simp [canSendQ, hopen, hnl]
  rw [hubBroadcast_room h m hrec hroom cs hcs]
  have he := (roomFanout_member m.roomId m cs h hnd c hc q hq).2 hcsq
  exact ⟨he.1, he.2.1, he.2.2,
    fun d hd qd hqd hok => (roomFanout_member m.roomId m cs h hnd d hd qd hqd).1 hok⟩

/-- The hub used in the C5 witness: clients 1 and 2 are in room 55;
client 1's queue has capacity 1 and already holds one message, so it is
full; client 2's queue is the fresh open queue. -/
def hubC5 : Hub :=
  ⟨[⟨1, 1, "a"⟩, ⟨2, 2, "b"⟩],
    [(1, ⟨1, 1, "a"⟩), (2, ⟨2, 2, "b"⟩)],
    [(55, [⟨1, 1, "a"⟩, ⟨2, 2, "b"⟩])],
    [(1, ⟨[⟨0, "chat", 55, 2, "b", 0, "old", 1, false⟩], 1, false⟩), (2, emptyQueue)]⟩

/-- C5 witness: broadcasting to room 55 of `hubC5` closes full client 1's
queue, removes client 1 from both maps, and still delivers to client 2. -/
theorem slowConsumer_evicted_witness :
    assocFind 1 (hubBroadcast hubC5 ⟨0, "chat", 55, 2, "b", 0, "hi", 5, false⟩).queues =
        some { (⟨[⟨0, "chat", 55, 2, "b", 0, "old", 1, false⟩], 1, false⟩ : Queue) with
                 closed := true } ∧
      (⟨1, 1, "a"⟩ : Client) ∉
        (hubBroadcast hubC5 ⟨0, "chat", 55, 2, "b", 0, "hi", 5, false⟩).clients ∧
      assocFind 1
          (hubBroadcast hubC5 ⟨0, "chat", 55, 2, "b", 0, "hi", 5, false⟩).clientsByUserID =
        none ∧
      assocFind 2 (hubBroadcast hubC5 ⟨0, "chat", 55, 2, "b", 0, "hi", 5, false⟩).queues =
        some { emptyQueue with msgs := emptyQueue.msgs ++
                 [⟨0, "chat", 55, 2, "b", 0, "hi", 5, false⟩] } := by
  have h := slowConsumer_evicted hubC5 ⟨0, "chat", 55, 2, "b", 0, "hi", 5, false⟩ rfl
    (by decide) [⟨1, 1, "a"⟩, ⟨2, 2, "b"⟩] rfl (by decide) ⟨1, 1, "a"⟩ (by decide)
    ⟨[⟨0, "chat", 55, 2, "b", 0, "old", 1, false⟩], 1, false⟩ rfl rfl (by decide)
  exact ⟨h.1, h.2.1, h.2.2.1, h.2.2.2 ⟨2, 2, "b"⟩ (by decide) emptyQueue rfl rfl⟩

/-! ### Claim C4: round-trip of an ordinary room chat frame -/

/-- C4: reading the inbound frame `(roomId R1, content "hi")` (all
server-populated fields zero, `type` omitted) on the connection of client
`c`, where `c` is currently joined to room `R1`, results in exactly one
persisted message — appended to the store with `type = MessageTypeChat`
(the spec's `normal`, applied because `type` was omitted), a non-nil
persistence-assigned id, `senderId = c.userId` and `roomId = R1` — and that
same stamped message is handed to the broadcast channel, whereupon the
Hub's broadcast delivers it to every client currently joined to `R1` whose
queue is open with space, which includes `c` itself. -/
theorem roundTrip_room_frame (h : Hub) (db : Store) (c : Client) (now R1 : Nat)
    (hR : R1 ≠ nilObjectID) (cs : List Client)
    (hcs : assocFind R1 h.roomClients = some cs) (hmem : c ∈ cs)
    (hnd : (cs.map (fun x => x.cid)).Nodup) :
    readPumpStep h db c now (some ⟨0, "", R1, 0, "", 0, "hi", 0, false⟩) false =
        (ReadResult.queued
            ⟨freshId db, MessageTypeChat, R1, c.userId, c.username, 0, "hi", now, false⟩,
          db ++ [⟨freshId db, MessageTypeChat, R1, c.userId, c.username, 0, "hi", now, false⟩]) ∧
      freshId db ≠ nilObjectID ∧
      (∀ d ∈ cs, ∀ qd : Queue, assocFind d.cid h.queues = some qd →
        canSendQ qd = true →
        assocFind d.cid
            (hubBroadcast h
              ⟨freshId db, MessageTypeChat, R1, c.userId, c.username, 0, "hi", now, false⟩).queues =
          some { qd with msgs := qd.msgs ++
            [⟨freshId db, MessageTypeChat, R1, c.userId, c.username, 0, "hi", now, false⟩] }) := by
  have hmemtrue : memClient c (roomList h R1) = true := by
    rw [roomList, hcs]
    exact (memClient_iff c cs).mpr hmem
  have hstamp : stampMessage c now ⟨0, "", R1, 0, "", 0, "hi", 0, false⟩ =
      ⟨0, MessageTypeChat, R1, c.userId, c.username, 0, "hi", now, false⟩ := rfl
  refine ⟨?_, Nat.succ_ne_zero (maxId db), ?_⟩
  · have hins : insertMessage db
        (⟨0, MessageTypeChat, R1, c.userId, c.username, 0, "hi", now, false⟩ : Message) =
        Except.ok
          (db ++ [⟨freshId db, MessageTypeChat, R1, c.userId, c.username, 0, "hi", now, false⟩],
            freshId db) := by
      simp [insertMessage, nilObjectID, hasId_freshId]
    simp only [readPumpStep, hstamp]
    rw [if_neg (fun hand => by
      rw [hmemtrue] at hand
      exact Bool.false_ne_true hand.2.symm)]
    rw [if_neg Bool.false_ne_true, hins]
  · intro d hd qd hqd hok
    rw [hubBroadcast_room h
      ⟨freshId db, MessageTypeChat, R1, c.userId, c.username, 0, "hi", now, false⟩
      rfl hR cs hcs]
    exact (roomFanout_member R1 _ cs h hnd d hd qd hqd).1 hok

/-- The hub used in the C4 witness: clients 1 (user 4, "alice") and 2
(user 6, "bob") are joined to room 55, both with fresh open queues. -/
def hubC4 : Hub :=
  ⟨[⟨1, 4, "alice"⟩, ⟨2, 6, "bob"⟩],
    [(4, ⟨1, 4, "alice"⟩), (6, ⟨2, 6, "bob"⟩)],
    [(55, [⟨1, 4, "alice"⟩, ⟨2, 6, "bob"⟩])],
    [(1, emptyQueue), (2, emptyQueue)]⟩

/-- C4 witness: user 4 ("alice", member of room 55) sends
`(roomId 55, content "hi")` into an empty store at time 9: exactly the
stamped message `(id 1, type chat, senderId 4)` is persisted and queued,
and the broadcast delivers it both to the sender (client 1) and to the
other member (client 2). -/
theorem roundTrip_room_frame_witness :
    readPumpStep hubC4 [] ⟨1, 4, "alice"⟩ 9 (some ⟨0, "", 55, 0, "", 0, "hi", 0, false⟩) false =
        (ReadResult.queued ⟨freshId [], MessageTypeChat, 55, 4, "alice", 0, "hi", 9, false⟩,
          [] ++ [⟨freshId [], MessageTypeChat, 55, 4, "alice", 0, "hi", 9, false⟩]) ∧
      assocFind 1
          (hubBroadcast hubC4
            ⟨freshId [], MessageTypeChat, 55, 4, "alice", 0, "hi", 9, false⟩).queues =
        some { emptyQueue with msgs := emptyQueue.msgs ++
                 [⟨freshId [], MessageTypeChat, 55, 4, "alice", 0, "hi", 9, false⟩] } ∧
      assocFind 2
          (hubBroadcast hubC4
            ⟨freshId [], MessageTypeChat, 55, 4, "alice", 0, "hi", 9, false⟩).queues =
        some { emptyQueue with msgs := emptyQueue.msgs ++
                 [⟨freshId [], MessageTypeChat, 55, 4, "alice", 0, "hi", 9, false⟩] } := by
  have h := roundTrip_room_frame hubC4 [] ⟨1, 4, "alice"⟩ 9 55 (by decide)
    [⟨1, 4, "alice"⟩, ⟨2, 6, "bob"⟩] rfl (by decide) (by decide)
  exact ⟨h.1, h.2.2 ⟨1, 4, "alice"⟩ (by decide) emptyQueue rfl rfl,
    h.2.2 ⟨2, 6, "bob"⟩ (by decide) emptyQueue rfl rfl⟩
